import Mathlib

/-!
# gzdec: the chunk decompressor of `src/gstgzdec.c`

A shallow embedding of `decompress`, `gst_gzdec_chain`, `gst_gzdec_init` and the
two property accessors.  zlib is an external library: its two entry points used
by the element (`inflateInit2`, `inflate`) are a parameter of the embedding
(`Zlib`), so every theorem that quantifies over `z : Zlib σ` holds for every
behaviour of zlib.

Conventions
* a byte is a `Nat`, a mapped buffer (`GstMapInfo.data`/`size`) is a `List Nat`
  whose length is `size`;
* `next_in` / `next_out` are offsets from `map_in.data` / `map_out.data`;
* `avail_in` and `avail_out` have zlib's type `uInt`, 32 bits wide, while a map
  size is a 64-bit `gsize`: the assignments `strm.avail_in = map_in.size` and
  `strm.avail_out = map_out.size` keep the size modulo 2^32 (`uInt`);
* the two `do ... while` loops are bounded by a `fuel` argument, a bound on the
  number of iterations of each loop: `none` means that a loop was still
  running when the bound was reached.
-/

namespace GzDec

/-! ## Constants of `zlib.h`, `gst/gstpad.h` and of the property enum -/

abbrev Z_OK : Int := 0
abbrev Z_STREAM_END : Int := 1
abbrev Z_NEED_DICT : Int := 2
abbrev Z_ERRNO : Int := -1
abbrev Z_STREAM_ERROR : Int := -2
abbrev Z_DATA_ERROR : Int := -3
abbrev Z_MEM_ERROR : Int := -4
abbrev Z_BUF_ERROR : Int := -5
abbrev Z_VERSION_ERROR : Int := -6
abbrev Z_NO_FLUSH : Int := 0
abbrev MAX_WBITS : Int := 15

abbrev GST_FLOW_OK : Int := 0
abbrev GST_FLOW_ERROR : Int := -5

abbrev PROP_0 : Nat := 0
abbrev PROP_SILENT : Nat := 1

/-- The value a `gsize` takes when it is assigned to a field of zlib's type
`uInt` (`unsigned int`, 32 bits). -/
def uInt (n : Nat) : Nat :=
  n % 4294967296

/-! ## zlib as a parameter -/

/-- The fields of `z_stream` that `decompress` and `inflate` read or write.
`state` stands for zlib's internal inflate state. -/
structure z_stream (σ : Type) where
  next_in : Nat
  avail_in : Nat
  next_out : Nat
  avail_out : Nat
  state : σ
deriving DecidableEq

/-- What one `inflate` call reports: its return code, the new internal state,
how many input bytes it took and the bytes it wrote. -/
structure InflateResult (σ : Type) where
  ret : Int
  state : σ
  consumed : Nat
  produced : List Nat

/-- The two zlib entry points used by the element.
`inflateInit2 windowBits` gives the return code and the fresh state;
`inflate state input avail_out flush` sees the `avail_in` bytes at `next_in`. -/
structure Zlib (σ : Type) where
  inflateInit2 : Int → Int × σ
  inflate : σ → List Nat → Nat → Int → InflateResult σ

/-- The call `inflate(&strm, flush)`: the bytes at `next_in` are offered, the
bytes produced are stored at `next_out`, and the four counters advance.
zlib never takes more than `avail_in` bytes nor writes more than `avail_out`. -/
def inflate {σ : Type} (z : Zlib σ) (map_in : List Nat) (strm : z_stream σ)
    (map_out : List Nat) (flush : Int) : Int × z_stream σ × List Nat :=
  let r := z.inflate strm.state ((map_in.drop strm.next_in).take strm.avail_in)
    strm.avail_out flush
  let used := min r.consumed strm.avail_in
  let made := r.produced.take strm.avail_out
  (r.ret,
   { next_in := strm.next_in + used,
     avail_in := strm.avail_in - used,
     next_out := strm.next_out + made.length,
     avail_out := strm.avail_out - made.length,
     state := r.state },
   map_out.take strm.next_out ++ made ++ map_out.drop (strm.next_out + made.length))

/-! ## `decompress` (lines 198-258) -/

/-- The `switch (ret)` of lines 236-245: the four codes on which `decompress`
gives up. -/
def isFatal (ret : Int) : Bool :=
  ret == Z_NEED_DICT || ret == Z_DATA_ERROR || ret == Z_MEM_ERROR || ret == Z_STREAM_ERROR

/-- One `inflate` call as `decompress` makes it: the stream fields on entry,
the return code, the stream fields on return. -/
structure InflateCall (σ : Type) where
  before : z_stream σ
  ret : Int
  after : z_stream σ
deriving DecidableEq

/-- How the inner loop is left. -/
inductive InnerExit (σ : Type) where
  | outOfFuel : InnerExit σ
  | returnNull : InnerExit σ
  | fallThrough (ret : Int) (strm : z_stream σ) (map_out : List Nat) : InnerExit σ

/-- The inner `do { ... } while (strm.avail_out == 0)` of lines 232-247, with
the list of the `inflate` calls it made.  Line 233 stores `map_out.size` in
the 32-bit field `avail_out`. -/
def innerLoop {σ : Type} (z : Zlib σ) (map_in : List Nat) :
    Nat → z_stream σ → List Nat → List (InflateCall σ) × InnerExit σ
  | 0, _, _ => ([], InnerExit.outOfFuel)
  | fuel + 1, strm, map_out =>
    let strm1 : z_stream σ := { strm with avail_out := uInt map_out.length, next_out := 0 }
    let call := inflate z map_in strm1 map_out Z_NO_FLUSH
    if isFatal call.1 then
      ([⟨strm1, call.1, call.2.1⟩], InnerExit.returnNull)
    else if call.2.1.avail_out = 0 then
      ((⟨strm1, call.1, call.2.1⟩ : InflateCall σ) ::
          (innerLoop z map_in fuel call.2.1 call.2.2).1,
       (innerLoop z map_in fuel call.2.1 call.2.2).2)
    else
      ([⟨strm1, call.1, call.2.1⟩], InnerExit.fallThrough call.1 call.2.1 call.2.2)

/-- The outer `do { ... } while (ret != Z_STREAM_END)` of lines 225-250.
Line 226 stores `map_in.size` in the 32-bit field `avail_in`.
Result: `none` while still looping, `some none` for `return NULL`,
`some (some bytes)` when the loop is left normally with `bytes` in the output
buffer. -/
def outerLoop {σ : Type} (z : Zlib σ) (map_in : List Nat) :
    Nat → z_stream σ → List Nat → List (InflateCall σ) × Option (Option (List Nat))
  | 0, _, _ => ([], none)
  | fuel + 1, strm, map_out =>
    let strm1 : z_stream σ := { strm with avail_in := uInt map_in.length }
    if strm1.avail_in = 0 then
      ([], some (some map_out))
    else
      let strm2 : z_stream σ := { strm1 with next_in := 0 }
      let inner := innerLoop z map_in (fuel + 1) strm2 map_out
      match inner.2 with
      | InnerExit.outOfFuel => (inner.1, none)
      | InnerExit.returnNull => (inner.1, some none)
      | InnerExit.fallThrough ret strm3 map_out3 =>
        if ret ≠ Z_STREAM_END then
          (inner.1 ++ (outerLoop z map_in fuel strm3 map_out3).1,
           (outerLoop z map_in fuel strm3 map_out3).2)
        else
          (inner.1, some (some map_out3))

/-- The call `gst_buffer_new_allocate (NULL, size, NULL)`: `size` bytes whose
contents are whatever the allocator left there (`junk i` at offset `i`). -/
def gst_buffer_new_allocate (junk : Nat → Nat) (size : Nat) : List Nat :=
  (List.range size).map junk

/-- The function `decompress` together with the `inflate` calls it makes. -/
def decompressTrace {σ : Type} (z : Zlib σ) (fuel : Nat) (junk : Nat → Nat)
    (input_buffer : List Nat) : List (InflateCall σ) × Option (Option (List Nat)) :=
  let map_in := input_buffer
  let map_out := gst_buffer_new_allocate junk map_in.length
  let init := z.inflateInit2 (16 + MAX_WBITS)
  let strm : z_stream σ :=
    { next_in := 0, avail_in := 0, next_out := 0, avail_out := 0, state := init.2 }
  if init.1 ≠ Z_OK then
    ([], some none)
  else
    outerLoop z map_in fuel strm map_out

/-- The function `decompress`: `some none` is `NULL`, `some (some b)` the
returned output buffer, `none` a run still looping after `fuel` iterations. -/
def decompress {σ : Type} (z : Zlib σ) (fuel : Nat) (junk : Nat → Nat)
    (input_buffer : List Nat) : Option (Option (List Nat)) :=
  (decompressTrace z fuel junk input_buffer).2

/-- The `inflate` calls made by `decompress`, in order. -/
def inflateCalls {σ : Type} (z : Zlib σ) (fuel : Nat) (junk : Nat → Nat)
    (input_buffer : List Nat) : List (InflateCall σ) :=
  (decompressTrace z fuel junk input_buffer).1

/-! ## The element (lines 150-196 and 263-280) -/

/-- The instance data of the element that the functions below touch:
the buffers pushed on the source pad so far (oldest first), the number of
element errors posted with `GST_ELEMENT_ERROR`, and the `silent` flag. -/
structure Gstgzdec where
  srcpad : List (List Nat)
  errors : Nat
  silent : Bool
deriving DecidableEq

/-- The function `gst_gzdec_init`: fresh pads, `silent = FALSE`. -/
def gst_gzdec_init : Gstgzdec :=
  { srcpad := [], errors := 0, silent := false }

/-- The function `gst_gzdec_set_property`; an unknown id only warns. -/
def gst_gzdec_set_property (filter : Gstgzdec) (prop_id : Nat) (value : Bool) : Gstgzdec :=
  if prop_id = PROP_SILENT then { filter with silent := value } else filter

/-- The function `gst_gzdec_get_property`: the new content of `value`, which an
unknown id leaves as it was. -/
def gst_gzdec_get_property (filter : Gstgzdec) (prop_id : Nat) (value : Bool) : Bool :=
  if prop_id = PROP_SILENT then filter.silent else value

/-- The call `gst_pad_push (pad, buffer)`: the buffer goes downstream and the
peer's answer (`peer buffer`) is the flow return. -/
def gst_pad_push (peer : List Nat → Int) (pad : List (List Nat)) (buffer : List Nat) :
    Int × List (List Nat) :=
  (peer buffer, pad ++ [buffer])

/-- The function `gst_gzdec_chain`: the flow return and the element afterwards
(`none` when `decompress` is still looping after `fuel` iterations). -/
def gst_gzdec_chain {σ : Type} (z : Zlib σ) (peer : List Nat → Int) (fuel : Nat)
    (junk : Nat → Nat) (filter : Gstgzdec) (buf : List Nat) : Option (Int × Gstgzdec) :=
  match decompress z fuel junk buf with
  | none => none
  | some none => some (GST_FLOW_ERROR, { filter with errors := filter.errors + 1 })
  | some (some outbuf) =>
    some ((gst_pad_push peer filter.srcpad outbuf).1,
          { filter with srcpad := (gst_pad_push peer filter.srcpad outbuf).2 })

/-- A sequence of chunks handed to the chain function one after the other:
the flow returns in order and the element at the end. -/
def chainAll {σ : Type} (z : Zlib σ) (peer : List Nat → Int) (fuel : Nat)
    (junk : Nat → Nat) : Gstgzdec → List (List Nat) → Option (List Int × Gstgzdec)
  | filter, [] => some ([], filter)
  | filter, buf :: rest =>
    match gst_gzdec_chain z peer fuel junk filter buf with
    | none => none
    | some (flow, filter1) =>
      match chainAll z peer fuel junk filter1 rest with
      | none => none
      | some (flows, filter2) => some (flow :: flows, filter2)

/-! ## Two stand-ins for zlib, used to run the code on concrete chunks

`scriptedZlib` answers from a table.  `storedZlib` decodes the gzip container
(RFC 1952, header without optional fields) around stored deflate blocks
(RFC 1951, BTYPE 00), with the return codes of zlib's `inflate`. -/

/-- A zlib whose answers are listed in advance: the state counts the calls
made on the stream, call number `n` returns `answers n`. -/
def scriptedZlib (initRet : Int) (answers : Nat → Int × Nat × List Nat) : Zlib Nat :=
  { inflateInit2 := fun _ => (initRet, 0),
    inflate := fun n _ _ _ =>
      { ret := (answers n).1, state := n + 1,
        consumed := (answers n).2.1, produced := (answers n).2.2 } }

/-- One bit step of the reflected CRC-32 (polynomial 0xEDB88320). -/
def crc32_bit (c : Nat) : Nat :=
  if c % 2 = 1 then (c / 2) ^^^ 0xEDB88320 else c / 2

/-- The CRC register after one more byte. -/
def crc32_byte (c b : Nat) : Nat :=
  crc32_bit (crc32_bit (crc32_bit (crc32_bit (crc32_bit (crc32_bit (crc32_bit
    (crc32_bit (c ^^^ b))))))))

/-- The function `crc32 (crc, buf, len)` of zlib. -/
def crc32 (crc : Nat) (buf : List Nat) : Nat :=
  (buf.foldl crc32_byte (crc ^^^ 0xFFFFFFFF)) ^^^ 0xFFFFFFFF

/-- Where the stored-block decoder stands in the stream. -/
inductive inflate_mode where
  | HEAD (got : List Nat) : inflate_mode
  | TYPE : inflate_mode
  | STORED (got : List Nat) : inflate_mode
  | COPY (length : Nat) : inflate_mode
  | CHECK (got : List Nat) : inflate_mode
  | DONE : inflate_mode
  | BAD : inflate_mode
deriving DecidableEq

/-- The decoder state: the mode, whether the current block is the last one,
the running CRC-32 of the output and the output length so far. -/
structure inflate_state where
  mode : inflate_mode
  last : Bool
  check : Nat
  total : Nat
deriving DecidableEq

/-- The mode after a stored block has been copied out. -/
def afterBlock (last : Bool) : inflate_mode :=
  if last then inflate_mode.CHECK [] else inflate_mode.TYPE

/-- The state after one input byte `b` in a mode that only reads
(`HEAD`, `TYPE`, `STORED`, `CHECK`).  A header that announces optional fields
(FLG above 1) and a Huffman-coded block (BTYPE 01 or 10) are outside this
decoder: it stops on them in mode `BAD`, as on a broken stream. -/
def readByte (s : inflate_state) (b : Nat) : inflate_state :=
  match s.mode with
  | inflate_mode.HEAD got =>
    let got1 := got ++ [b]
    if got1.length = 2 ∧ got1 ≠ [0x1f, 0x8b] then { s with mode := inflate_mode.BAD }
    else if got1.length = 4 ∧ (got1.getD 2 0 ≠ 8 ∨ got1.getD 3 0 / 2 ≠ 0) then
      { s with mode := inflate_mode.BAD }
    else if got1.length = 10 then { s with mode := inflate_mode.TYPE }
    else { s with mode := inflate_mode.HEAD got1 }
  | inflate_mode.TYPE =>
    if (b / 2) % 4 = 0 then { s with mode := inflate_mode.STORED [], last := decide (b % 2 = 1) }
    else { s with mode := inflate_mode.BAD, last := decide (b % 2 = 1) }
  | inflate_mode.STORED got =>
    let got1 := got ++ [b]
    if got1.length = 4 then
      let len := got1.getD 0 0 + 256 * got1.getD 1 0
      let nlen := got1.getD 2 0 + 256 * got1.getD 3 0
      if len ≠ nlen ^^^ 0xFFFF then { s with mode := inflate_mode.BAD }
      else if len = 0 then { s with mode := afterBlock s.last }
      else { s with mode := inflate_mode.COPY len }
    else { s with mode := inflate_mode.STORED got1 }
  | inflate_mode.CHECK got =>
    let got1 := got ++ [b]
    let word := got1.getD 0 0 + 256 * got1.getD 1 0 + 65536 * got1.getD 2 0
      + 16777216 * got1.getD 3 0
    let word2 := got1.getD 4 0 + 256 * got1.getD 5 0 + 65536 * got1.getD 6 0
      + 16777216 * got1.getD 7 0
    if got1.length = 4 ∧ word ≠ s.check then { s with mode := inflate_mode.BAD }
    else if got1.length = 8 then
      if word2 ≠ s.total % 4294967296 then { s with mode := inflate_mode.BAD }
      else { s with mode := inflate_mode.DONE }
    else { s with mode := inflate_mode.CHECK got1 }
  | _ => s

/-- The decoder run over the offered input with `left` bytes of output space:
the state reached, the number of bytes taken, the bytes written. -/
def inflateBytes : inflate_state → List Nat → Nat → inflate_state × Nat × List Nat
  | s, [], _ => (s, 0, [])
  | s, b :: rest, left =>
    match s.mode with
    | inflate_mode.DONE => (s, 0, [])
    | inflate_mode.BAD => (s, 0, [])
    | inflate_mode.COPY length =>
      if left = 0 then (s, 0, [])
      else
        let s1 : inflate_state :=
          { s with
            mode := if length = 1 then afterBlock s.last else inflate_mode.COPY (length - 1),
            check := crc32 s.check [b],
            total := s.total + 1 }
        ((inflateBytes s1 rest (left - 1)).1,
         (inflateBytes s1 rest (left - 1)).2.1 + 1,
         b :: (inflateBytes s1 rest (left - 1)).2.2)
    | _ =>
      ((inflateBytes (readByte s b) rest left).1,
       (inflateBytes (readByte s b) rest left).2.1 + 1,
       (inflateBytes (readByte s b) rest left).2.2)

/-- The return code of `inflate` for a run that ended in state `s`. -/
def inflateRet (s : inflate_state) (consumed : Nat) (produced : List Nat) : Int :=
  match s.mode with
  | inflate_mode.DONE => Z_STREAM_END
  | inflate_mode.BAD => Z_DATA_ERROR
  | _ => if consumed = 0 ∧ produced = [] then Z_BUF_ERROR else Z_OK

/-- The stored-block gzip decoder as a `Zlib`;  `initRet` is what
`inflateInit2` returns. -/
def storedZlib (initRet : Int) : Zlib inflate_state :=
  { inflateInit2 := fun _ =>
      (initRet, { mode := inflate_mode.HEAD [], last := false, check := 0, total := 0 }),
    inflate := fun s input avail_out _ =>
      { ret := inflateRet (inflateBytes s input avail_out).1
          (inflateBytes s input avail_out).2.1 (inflateBytes s input avail_out).2.2,
        state := (inflateBytes s input avail_out).1,
        consumed := (inflateBytes s input avail_out).2.1,
        produced := (inflateBytes s input avail_out).2.2 } }

/-! ## Sample chunks -/

/-- The gzip stream of the one-byte payload `a`, as one stored block
(10 header bytes, block header `01 01 00 fe ff`, the byte, CRC-32, ISIZE). -/
def gzip_a : List Nat :=
  [0x1f, 0x8b, 8, 0, 0, 0, 0, 0, 0, 3, 1, 1, 0, 0xfe, 0xff, 0x61,
   0x43, 0xbe, 0xb7, 0xe8, 1, 0, 0, 0]

/-- The gzip stream of the empty payload, as one empty stored block. -/
def gzip_empty : List Nat :=
  [0x1f, 0x8b, 8, 0, 0, 0, 0, 0, 0, 3, 1, 0, 0, 0xff, 0xff, 0, 0, 0, 0, 0, 0, 0, 0]

/-- The first 15 bytes of a gzip stream: the header and the header of a
stored block of 10 bytes that is not the last block. -/
def gzip_cut : List Nat :=
  [0x1f, 0x8b, 8, 0, 0, 0, 0, 0, 0, 3, 0, 10, 0, 0xf5, 0xff]

/-- A chunk of 2^32 + 24 bytes: the 15 bytes of `gzip_cut` followed by zero
bytes. -/
def gzip_huge : List Nat :=
  gzip_cut ++ List.replicate 4294967305 0

/-- One hundred bytes of payload: the digits `0123456789`, ten times. -/
def digits : List Nat :=
  (List.range 100).map fun i => 0x30 + i % 10

/-- The 33 bytes that `gzip -9` makes of `digits` (a Huffman-coded block:
ten literals and one long match). -/
def gzip_digits : List Nat :=
  [0x1f, 0x8b, 8, 0, 0, 0, 0, 0, 2, 3, 0x33, 0x30, 0x34, 0x32, 0x36, 0x31, 0x35, 0x33,
   0xb7, 0xb0, 0x34, 0xa0, 0x19, 0x0b, 0, 0xbc, 0x4b, 0xfc, 0xb1, 0x64, 0, 0, 0]

/-- What zlib answers, call after call, when `decompress` runs on
`gzip_digits` (33 bytes of output space each time): bytes 0-32 of the payload
for the first 24 input bytes, bytes 33-65 and then bytes 66-98 for no further
input, at last byte 99 for the remaining 9 input bytes, with `Z_STREAM_END`. -/
def gzip_digits_answers (n : Nat) : Int × Nat × List Nat :=
  (if n < 3 then Z_OK else Z_STREAM_END,
   if n = 0 then 24 else if n < 3 then 0 else 9,
   (digits.drop (33 * n)).take 33)

/-! ## Specification vocabulary -/

/-- How two consecutive `inflate` calls `c`, `n` of one `decompress` run on a
chunk of `size` bytes are related: `c` did not return one of the four fatal
codes, `n` runs on the state `c` left with the whole output buffer offered
again; after a call that filled the output buffer `n` goes on with the input
`c` left, after any other call `c` was not the end of the stream and `n`
is given the chunk from its first byte. -/
def NextCall {σ : Type} (size : Nat) (c n : InflateCall σ) : Prop :=
  isFatal c.ret = false ∧
  n.before.state = c.after.state ∧ n.before.avail_out = size ∧ n.before.next_out = 0 ∧
  (c.after.avail_out = 0 →
    n.before.avail_in = c.after.avail_in ∧ n.before.next_in = c.after.next_in) ∧
  (c.after.avail_out ≠ 0 →
    c.ret ≠ Z_STREAM_END ∧ n.before.avail_in = size ∧ n.before.next_in = 0)

/-! ## Properties of the two loops -/

variable {σ : Type}

theorem uInt_le (n : Nat) : uInt n ≤ n :=
  Nat.mod_le n 4294967296

theorem uInt_of_lt {n : Nat} (h : n < 4294967296) : uInt n = n :=
  Nat.mod_eq_of_lt h

theorem inflate_length (z : Zlib σ) (map_in : List Nat) (strm : z_stream σ)
    (map_out : List Nat) (flush : Int)
    (h : strm.next_out + strm.avail_out ≤ map_out.length) :
    (inflate z map_in strm map_out flush).2.2.length = map_out.length := by
  simp only [inflate, List.length_append, List.length_take, List.length_drop]
  omega

theorem innerLoop_length (z : Zlib σ) (map_in : List Nat) (fuel : Nat) :
    ∀ (strm : z_stream σ) (map_out : List Nat) (ret : Int) (strm3 : z_stream σ)
      (map_out3 : List Nat),
      (innerLoop z map_in fuel strm map_out).2 = InnerExit.fallThrough ret strm3 map_out3 →
      map_out3.length = map_out.length := by
  induction fuel with
  | zero => intro strm map_out ret strm3 map_out3 h; simp [innerLoop] at h
  | succ n ih =>
    intro strm map_out ret strm3 map_out3 h
    have hlen := inflate_length z map_in
      { strm with avail_out := uInt map_out.length, next_out := 0 } map_out Z_NO_FLUSH
      (by simpa using uInt_le _)
    simp only [innerLoop] at h
    split_ifs at h with h1 h2
    · have := ih _ _ _ _ _ h
      omega
    · simp only [InnerExit.fallThrough.injEq] at h
      rw [← h.2.2]
      exact hlen

theorem outerLoop_length (z : Zlib σ) (map_in : List Nat) (fuel : Nat) :
    ∀ (strm : z_stream σ) (map_out out : List Nat),
      (outerLoop z map_in fuel strm map_out).2 = some (some out) →
      out.length = map_out.length := by
  induction fuel with
  | zero => intro strm map_out out h; simp [outerLoop] at h
  | succ n ih =>
    intro strm map_out out h
    simp only [outerLoop] at h
    split_ifs at h with h0
    · simp only [Option.some.injEq] at h
      rw [h]
    · split at h
      · simp at h
      · simp at h
      · rename_i ret strm3 map_out3 hex
        have hl := innerLoop_length z map_in _ _ _ _ _ _ hex
        split_ifs at h with h3
        · have := ih _ _ _ h
          omega
        · simp only [Option.some.injEq] at h
          rw [← h]
          exact hl

theorem innerLoop_calls (z : Zlib σ) (map_in : List Nat) (fuel : Nat) :
    ∀ (strm : z_stream σ) (map_out : List Nat), map_out.length = map_in.length →
      List.Chain' (NextCall (uInt map_in.length)) (innerLoop z map_in fuel strm map_out).1 ∧
      (∀ c ∈ (innerLoop z map_in fuel strm map_out).1.head?,
        c.before = { strm with avail_out := uInt map_in.length, next_out := 0 }) ∧
      (∀ ret strm3 map_out3,
        (innerLoop z map_in fuel strm map_out).2 = InnerExit.fallThrough ret strm3 map_out3 →
        ∃ c, (innerLoop z map_in fuel strm map_out).1.getLast? = some c ∧ c.ret = ret ∧
          c.after = strm3 ∧ strm3.avail_out ≠ 0 ∧ isFatal ret = false) ∧
      ((innerLoop z map_in fuel strm map_out).2 = InnerExit.returnNull →
        ∃ c, (innerLoop z map_in fuel strm map_out).1.getLast? = some c ∧
          isFatal c.ret = true) := by
  induction fuel with
  | zero =>
    intro strm map_out _
    simp [innerLoop]
  | succ n ih =>
    intro strm map_out hlen
    have hl2 := inflate_length z map_in
      { strm with avail_out := uInt map_out.length, next_out := 0 } map_out Z_NO_FLUSH
      (by simpa using uInt_le _)
    simp only [innerLoop]
    split_ifs with h1 h2
    · rw [hlen] at h1
      simp [h1, hlen]
    · obtain ⟨ihc, ihh, ihf, ihn⟩ := ih
        (inflate z map_in { strm with avail_out := uInt map_out.length, next_out := 0 }
          map_out Z_NO_FLUSH).2.1
        (inflate z map_in { strm with avail_out := uInt map_out.length, next_out := 0 }
          map_out Z_NO_FLUSH).2.2 (by omega)
      refine ⟨?_, ?_, ?_, ?_⟩
      · rw [List.chain'_cons']
        refine ⟨?_, ihc⟩
        intro y hy
        have hb := ihh y hy
        simp only [NextCall, hb]
        simp [h1, h2]
      · simp [hlen]
      · intro ret strm3 map_out3 hex
        obtain ⟨c, hc, hrest⟩ := ihf ret strm3 map_out3 hex
        exact ⟨c, by rw [List.getLast?_cons, hc]; rfl, hrest⟩
      · intro hex
        obtain ⟨c, hc, hrest⟩ := ihn hex
        exact ⟨c, by rw [List.getLast?_cons, hc]; rfl, hrest⟩
    · rw [hlen] at h1 h2
      simp [h1, h2, hlen]

theorem outerLoop_calls (z : Zlib σ) (map_in : List Nat) (fuel : Nat) :
    ∀ (strm : z_stream σ) (map_out : List Nat), map_out.length = map_in.length →
      List.Chain' (NextCall (uInt map_in.length)) (outerLoop z map_in fuel strm map_out).1 ∧
      (∀ c ∈ (outerLoop z map_in fuel strm map_out).1.head?,
        c.before = { next_in := 0, avail_in := uInt map_in.length, next_out := 0,
                     avail_out := uInt map_in.length, state := strm.state }) ∧
      (∀ res, (outerLoop z map_in fuel strm map_out).2 = some res →
        (uInt map_in.length = 0 ∧ (outerLoop z map_in fuel strm map_out).1 = [] ∧
          res = some map_out) ∨
        ∃ c, (outerLoop z map_in fuel strm map_out).1.getLast? = some c ∧
          ((isFatal c.ret = true ∧ res = none) ∨
           (isFatal c.ret = false ∧ c.ret = Z_STREAM_END ∧ c.after.avail_out ≠ 0 ∧
             ∃ b, res = some b))) := by
  induction fuel with
  | zero =>
    intro strm map_out _
    simp [outerLoop]
  | succ n ih =>
    intro strm map_out hlen
    obtain ⟨hc, hh, hf, hn⟩ := innerLoop_calls z map_in (n + 1)
      { strm with avail_in := uInt map_in.length, next_in := 0 } map_out hlen
    simp only [outerLoop]
    split_ifs with h0
    · simp [h0]
    · split
      · rename_i hex
        exact ⟨hc, hh, by simp⟩
      · rename_i hex
        obtain ⟨c, hcl, hfat⟩ := hn hex
        refine ⟨hc, hh, ?_⟩
        intro res hres
        right
        simp only [Option.some.injEq] at hres
        exact ⟨c, hcl, Or.inl ⟨hfat, hres.symm⟩⟩
      · rename_i ret strm3 map_out3 hex
        obtain ⟨c, hcl, hret, haft, hav, hnf⟩ := hf ret strm3 map_out3 hex
        have hl3 := innerLoop_length z map_in _ _ _ _ _ _ hex
        have hne : (innerLoop z map_in (n + 1)
            { strm with avail_in := uInt map_in.length, next_in := 0 } map_out).1 ≠ [] := by
          intro hnil
          rw [hnil] at hcl
          simp at hcl
        split_ifs with h3
        · obtain ⟨ic, ih2, ires⟩ := ih strm3 map_out3 (by omega)
          refine ⟨?_, ?_, ?_⟩
          · refine List.Chain'.append hc ic ?_
            intro x hx y hy
            have hxc : x = c := by
              rw [hcl] at hx
              simpa using hx.symm
            have hb := ih2 y hy
            subst hxc
            simp only [NextCall, hb, hret, haft]
            simp [hnf, hav, h3]
          · intro c1 hc1
            rw [List.head?_append_of_ne_nil _ hne] at hc1
            exact hh c1 hc1
          · intro res hres
            right
            rcases ires res hres with ⟨hz, _, _⟩ | ⟨c2, hc2, hrest⟩
            · exact absurd hz h0
            · exact ⟨c2, by rw [List.getLast?_append, hc2]; rfl, hrest⟩
        · refine ⟨hc, hh, ?_⟩
          intro res hres
          right
          simp only [Option.some.injEq] at hres
          have h3e : ret = Z_STREAM_END := by
            by_contra hcon
            exact h3 hcon
          exact ⟨c, hcl, Or.inr ⟨by rw [hret]; exact hnf, by rw [hret]; exact h3e,
            by rw [haft]; exact hav, map_out3, hres.symm⟩⟩

theorem inflateCalls_chain (z : Zlib σ) (fuel : Nat) (junk : Nat → Nat) (buf : List Nat) :
    List.Chain' (NextCall (uInt buf.length)) (inflateCalls z fuel junk buf) := by
  simp only [inflateCalls, decompressTrace]
  split_ifs with h
  · exact List.chain'_nil
  · exact (outerLoop_calls z buf fuel _ _ (by simp [gst_buffer_new_allocate])).1

theorem innerLoop_succ (z : Zlib σ) (map_in : List Nat) (fuel : Nat) (strm : z_stream σ)
    (map_out : List Nat) :
    innerLoop z map_in (fuel + 1) strm map_out =
      if isFatal (inflate z map_in { strm with avail_out := uInt map_out.length, next_out := 0 }
          map_out Z_NO_FLUSH).1 then
        ([⟨{ strm with avail_out := uInt map_out.length, next_out := 0 },
           (inflate z map_in { strm with avail_out := uInt map_out.length, next_out := 0 }
             map_out Z_NO_FLUSH).1,
           (inflate z map_in { strm with avail_out := uInt map_out.length, next_out := 0 }
             map_out Z_NO_FLUSH).2.1⟩], InnerExit.returnNull)
      else if (inflate z map_in { strm with avail_out := uInt map_out.length, next_out := 0 }
          map_out Z_NO_FLUSH).2.1.avail_out = 0 then
        ((⟨{ strm with avail_out := uInt map_out.length, next_out := 0 },
           (inflate z map_in { strm with avail_out := uInt map_out.length, next_out := 0 }
             map_out Z_NO_FLUSH).1,
           (inflate z map_in { strm with avail_out := uInt map_out.length, next_out := 0 }
             map_out Z_NO_FLUSH).2.1⟩ : InflateCall σ) ::
          (innerLoop z map_in fuel
            (inflate z map_in { strm with avail_out := uInt map_out.length, next_out := 0 }
              map_out Z_NO_FLUSH).2.1
            (inflate z map_in { strm with avail_out := uInt map_out.length, next_out := 0 }
              map_out Z_NO_FLUSH).2.2).1,
         (innerLoop z map_in fuel
            (inflate z map_in { strm with avail_out := uInt map_out.length, next_out := 0 }
              map_out Z_NO_FLUSH).2.1
            (inflate z map_in { strm with avail_out := uInt map_out.length, next_out := 0 }
              map_out Z_NO_FLUSH).2.2).2)
      else
        ([⟨{ strm with avail_out := uInt map_out.length, next_out := 0 },
           (inflate z map_in { strm with avail_out := uInt map_out.length, next_out := 0 }
             map_out Z_NO_FLUSH).1,
           (inflate z map_in { strm with avail_out := uInt map_out.length, next_out := 0 }
             map_out Z_NO_FLUSH).2.1⟩],
         InnerExit.fallThrough
           (inflate z map_in { strm with avail_out := uInt map_out.length, next_out := 0 }
             map_out Z_NO_FLUSH).1
           (inflate z map_in { strm with avail_out := uInt map_out.length, next_out := 0 }
             map_out Z_NO_FLUSH).2.1
           (inflate z map_in { strm with avail_out := uInt map_out.length, next_out := 0 }
             map_out Z_NO_FLUSH).2.2) :=
  rfl

theorem outerLoop_succ (z : Zlib σ) (map_in : List Nat) (fuel : Nat) (strm : z_stream σ)
    (map_out : List Nat) :
    outerLoop z map_in (fuel + 1) strm map_out =
      if uInt map_in.length = 0 then ([], some (some map_out))
      else
        match (innerLoop z map_in (fuel + 1)
            { strm with avail_in := uInt map_in.length, next_in := 0 } map_out).2 with
        | InnerExit.outOfFuel =>
          ((innerLoop z map_in (fuel + 1)
            { strm with avail_in := uInt map_in.length, next_in := 0 } map_out).1, none)
        | InnerExit.returnNull =>
          ((innerLoop z map_in (fuel + 1)
            { strm with avail_in := uInt map_in.length, next_in := 0 } map_out).1, some none)
        | InnerExit.fallThrough ret strm3 map_out3 =>
          if ret ≠ Z_STREAM_END then
            ((innerLoop z map_in (fuel + 1)
                { strm with avail_in := uInt map_in.length, next_in := 0 } map_out).1 ++
              (outerLoop z map_in fuel strm3 map_out3).1,
             (outerLoop z map_in fuel strm3 map_out3).2)
          else
            ((innerLoop z map_in (fuel + 1)
              { strm with avail_in := uInt map_in.length, next_in := 0 } map_out).1,
             some (some map_out3)) :=
  rfl

theorem innerLoop_mono (z : Zlib σ) (map_in : List Nat) (fuel : Nat) :
    ∀ (strm : z_stream σ) (map_out : List Nat),
      ((innerLoop z map_in fuel strm map_out).2 ≠ InnerExit.outOfFuel →
        innerLoop z map_in (fuel + 1) strm map_out = innerLoop z map_in fuel strm map_out) ∧
      ((innerLoop z map_in fuel strm map_out).2 = InnerExit.outOfFuel →
        ∃ c rest, (innerLoop z map_in (fuel + 1) strm map_out).1 =
          (innerLoop z map_in fuel strm map_out).1 ++ c :: rest) := by
  induction fuel with
  | zero =>
    intro strm map_out
    refine ⟨by simp [innerLoop], ?_⟩
    intro _
    simp only [innerLoop]
    split_ifs <;> simp
  | succ n ih =>
    intro strm map_out
    rw [innerLoop_succ z map_in (n + 1), innerLoop_succ z map_in n]
    split_ifs with h1 h2
    · simp
    · obtain ⟨ih1, ih2⟩ := ih
        (inflate z map_in { strm with avail_out := uInt map_out.length, next_out := 0 }
          map_out Z_NO_FLUSH).2.1
        (inflate z map_in { strm with avail_out := uInt map_out.length, next_out := 0 }
          map_out Z_NO_FLUSH).2.2
      refine ⟨?_, ?_⟩
      · intro hne
        rw [ih1 hne]
      · intro he
        obtain ⟨c, rest, hcr⟩ := ih2 he
        exact ⟨c, rest, by rw [hcr]; simp⟩
    · simp

theorem outerLoop_mono (z : Zlib σ) (map_in : List Nat) (fuel : Nat) :
    ∀ (strm : z_stream σ) (map_out : List Nat),
      ((outerLoop z map_in fuel strm map_out).2 ≠ none →
        outerLoop z map_in (fuel + 1) strm map_out = outerLoop z map_in fuel strm map_out) ∧
      ((outerLoop z map_in fuel strm map_out).2 = none → uInt map_in.length ≠ 0 →
        ∃ c rest, (outerLoop z map_in (fuel + 1) strm map_out).1 =
          (outerLoop z map_in fuel strm map_out).1 ++ c :: rest) := by
  induction fuel with
  | zero =>
    intro strm map_out
    refine ⟨by simp [outerLoop], ?_⟩
    intro _ hl
    rw [outerLoop_succ]
    simp only [hl, if_false, outerLoop, List.nil_append]
    rw [innerLoop_succ]
    split_ifs
    · simp [innerLoop]
    · simp [innerLoop]
    · simp only [innerLoop]
      split_ifs <;> simp
  | succ n ih =>
    intro strm map_out
    rw [outerLoop_succ z map_in (n + 1), outerLoop_succ z map_in n]
    split_ifs with h0
    · simp
    · obtain ⟨im1, im2⟩ := innerLoop_mono z map_in (n + 1)
        { strm with avail_in := uInt map_in.length, next_in := 0 } map_out
      cases hex : (innerLoop z map_in (n + 1)
          { strm with avail_in := uInt map_in.length, next_in := 0 } map_out).2 with
      | outOfFuel =>
        obtain ⟨c, rest, hcr⟩ := im2 hex
        refine ⟨by simp, ?_⟩
        intro _ _
        cases hex2 : (innerLoop z map_in (n + 1 + 1)
            { strm with avail_in := uInt map_in.length, next_in := 0 } map_out).2 with
        | outOfFuel => exact ⟨c, rest, by simp only [hcr]⟩
        | returnNull => exact ⟨c, rest, by simp only [hcr]⟩
        | fallThrough ret strm3 map_out3 =>
          simp only [hcr]
          split_ifs
          · exact ⟨c, rest ++ (outerLoop z map_in (n + 1) strm3 map_out3).1, by simp⟩
          · exact ⟨c, rest, rfl⟩
      | returnNull =>
        rw [im1 (by rw [hex]; simp), hex]
        simp
      | fallThrough ret strm3 map_out3 =>
        rw [im1 (by rw [hex]; simp), hex]
        simp only []
        obtain ⟨ih1, ih2⟩ := ih strm3 map_out3
        split_ifs with h3
        · refine ⟨?_, ?_⟩
          · intro hne
            rw [ih1 hne]
          · intro he hne
            obtain ⟨c, rest, hcr⟩ := ih2 he hne
            exact ⟨c, rest, by rw [hcr]; simp⟩
        · simp

theorem chain_getElem? {α : Type} {R : α → α → Prop} {l : List α} (h : List.Chain' R l)
    {i : Nat} {a b : α} (ha : l[i]? = some a) (hb : l[i + 1]? = some b) : R a b := by
  obtain ⟨hi, rfl⟩ := List.getElem?_eq_some_iff.mp ha
  obtain ⟨hj, rfl⟩ := List.getElem?_eq_some_iff.mp hb
  exact List.chain'_iff_get.mp h i (by omega)

theorem inflateCalls_nil (z : Zlib σ) (fuel : Nat) (junk : Nat → Nat) (buf : List Nat)
    (h : uInt buf.length = 0) : inflateCalls z fuel junk buf = [] := by
  simp only [inflateCalls, decompressTrace]
  split_ifs
  · rfl
  · cases fuel <;> simp [outerLoop, h]

theorem decompress_last (z : Zlib σ) (fuel : Nat) (junk : Nat → Nat) (buf : List Nat)
    (res : Option (List Nat)) (h : decompress z fuel junk buf = some res) :
    inflateCalls z fuel junk buf = [] ∨
    ∃ c, (inflateCalls z fuel junk buf).getLast? = some c ∧
      ((isFatal c.ret = true ∧ res = none) ∨
       (isFatal c.ret = false ∧ c.ret = Z_STREAM_END ∧ c.after.avail_out ≠ 0 ∧
         ∃ b, res = some b)) := by
  simp only [decompress, inflateCalls, decompressTrace] at h ⊢
  split_ifs at h ⊢ with h0
  · left; rfl
  · rcases (outerLoop_calls z buf fuel _ _ (by simp [gst_buffer_new_allocate])).2.2 res h
      with ⟨_, hnil, _⟩ | hc
    · left; exact hnil
    · right; exact hc

theorem decompressTrace_mono (z : Zlib σ) (fuel : Nat) (junk : Nat → Nat) (buf : List Nat) :
    (decompress z fuel junk buf ≠ none →
      decompressTrace z (fuel + 1) junk buf = decompressTrace z fuel junk buf) ∧
    (decompress z fuel junk buf = none → uInt buf.length ≠ 0 →
      ∃ c rest, inflateCalls z (fuel + 1) junk buf =
        inflateCalls z fuel junk buf ++ c :: rest) := by
  simp only [decompress, inflateCalls, decompressTrace]
  split_ifs with h0
  · simp
  · exact outerLoop_mono z buf fuel _ _

theorem next_call (z : Zlib σ) (fuel : Nat) (junk : Nat → Nat) (buf : List Nat)
    (i : Nat) (c : InflateCall σ) (hc : (inflateCalls z fuel junk buf)[i]? = some c)
    (hnf : isFatal c.ret = false) (hgo : c.ret ≠ Z_STREAM_END ∨ c.after.avail_out = 0) :
    (inflateCalls z (fuel + 1) junk buf)[i]? = some c ∧
    ∃ n, (inflateCalls z (fuel + 1) junk buf)[i + 1]? = some n ∧ NextCall (uInt buf.length) c n := by
  obtain ⟨hi, hci⟩ := List.getElem?_eq_some_iff.mp hc
  have hbuf : uInt buf.length ≠ 0 := by
    intro hb
    rw [inflateCalls_nil z fuel junk buf hb] at hi
    simp at hi
  obtain ⟨m1, m2⟩ := decompressTrace_mono z fuel junk buf
  have key : (inflateCalls z (fuel + 1) junk buf)[i]? = some c ∧
      i + 1 < (inflateCalls z (fuel + 1) junk buf).length := by
    cases hres : decompress z fuel junk buf with
    | none =>
      obtain ⟨c0, rest, hcr⟩ := m2 hres hbuf
      rw [hcr]
      refine ⟨?_, ?_⟩
      · rw [List.getElem?_append_left hi]
        exact hc
      · simp
        omega
    | some res =>
      have heq : inflateCalls z (fuel + 1) junk buf = inflateCalls z fuel junk buf := by
        simp only [inflateCalls]
        rw [m1 (by rw [hres]; simp)]
      rw [heq]
      refine ⟨hc, ?_⟩
      rcases decompress_last z fuel junk buf res hres with hnil | ⟨l, hl, hcase⟩
      · rw [hnil] at hi
        simp at hi
      · by_contra hlt
        have hlast : i = (inflateCalls z fuel junk buf).length - 1 := by omega
        rw [List.getLast?_eq_getElem?, ← hlast, hc] at hl
        simp only [Option.some.injEq] at hl
        subst hl
        rcases hcase with ⟨hf, _⟩ | ⟨_, hend, hav, _⟩
        · rw [hnf] at hf
          simp at hf
        · rcases hgo with h | h
          · exact h hend
          · exact hav h
  obtain ⟨k1, k2⟩ := key
  refine ⟨k1, (inflateCalls z (fuel + 1) junk buf)[i + 1], by simp [k2], ?_⟩
  exact chain_getElem? (inflateCalls_chain z (fuel + 1) junk buf) k1 (by simp [k2])

theorem decompress_stable (z : Zlib σ) (fuel : Nat) (junk : Nat → Nat) (buf : List Nat)
    (res : Option (List Nat)) (h : decompress z fuel junk buf = some res) (k : Nat) :
    decompress z (fuel + k) junk buf = some res := by
  induction k with
  | zero => exact h
  | succ k ih =>
    have := (decompressTrace_mono z (fuel + k) junk buf).1 (by rw [ih]; simp)
    simp only [decompress] at ih ⊢
    rw [← Nat.add_assoc, this]
    exact ih

theorem innerLoop_fatal (z : Zlib σ) (map_in : List Nat) (fuel : Nat) :
    ∀ (strm : z_stream σ) (map_out : List Nat) (c : InflateCall σ),
      c ∈ (innerLoop z map_in fuel strm map_out).1 → isFatal c.ret = true →
      (innerLoop z map_in fuel strm map_out).2 = InnerExit.returnNull := by
  induction fuel with
  | zero => intro strm map_out c hc; simp [innerLoop] at hc
  | succ n ih =>
    intro strm map_out c hc hf
    rw [innerLoop_succ] at hc ⊢
    split_ifs at hc ⊢ with h1 h2
    · rfl
    · simp only [List.mem_cons] at hc
      rcases hc with rfl | hc
      · exact absurd hf h1
      · exact ih _ _ c hc hf
    · simp only [List.mem_singleton] at hc
      subst hc
      exact absurd hf h1

theorem outerLoop_fatal (z : Zlib σ) (map_in : List Nat) (fuel : Nat) :
    ∀ (strm : z_stream σ) (map_out : List Nat) (c : InflateCall σ),
      c ∈ (outerLoop z map_in fuel strm map_out).1 → isFatal c.ret = true →
      (outerLoop z map_in fuel strm map_out).2 = some none := by
  induction fuel with
  | zero => intro strm map_out c hc; simp [outerLoop] at hc
  | succ n ih =>
    intro strm map_out c hc hf
    have hin := innerLoop_fatal z map_in (n + 1)
      { strm with avail_in := uInt map_in.length, next_in := 0 } map_out c
    rw [outerLoop_succ] at hc ⊢
    split_ifs at hc ⊢ with h0
    · simp at hc
    · cases hex : (innerLoop z map_in (n + 1)
          { strm with avail_in := uInt map_in.length, next_in := 0 } map_out).2 with
      | outOfFuel =>
        rw [hex] at hc hin
        simp only [] at hc
        exact absurd (hin hc hf) (by simp)
      | returnNull => rfl
      | fallThrough ret strm3 map_out3 =>
        rw [hex] at hc hin
        simp only [] at hc ⊢
        split_ifs at hc ⊢ with h3
        · simp only [List.mem_append] at hc
          rcases hc with hc | hc
          · exact absurd (hin hc hf) (by simp)
          · exact ih _ _ c hc hf
        · exact absurd (hin hc hf) (by simp)

theorem outerLoop_forever (z : Zlib σ) (chunk : List Nat) (Inv : σ → Prop)
    (hne : (uInt chunk.length) ≠ 0)
    (hstep : ∀ s, Inv s →
      isFatal (z.inflate s (List.take (uInt chunk.length) chunk) (uInt chunk.length) Z_NO_FLUSH).ret = false ∧
      (z.inflate s (List.take (uInt chunk.length) chunk) (uInt chunk.length) Z_NO_FLUSH).ret ≠ Z_STREAM_END ∧
      (z.inflate s (List.take (uInt chunk.length) chunk) (uInt chunk.length) Z_NO_FLUSH).produced.length < (uInt chunk.length) ∧
      Inv (z.inflate s (List.take (uInt chunk.length) chunk) (uInt chunk.length) Z_NO_FLUSH).state)
    (fuel : Nat) :
    ∀ (strm : z_stream σ) (map_out : List Nat), Inv strm.state →
      map_out.length = chunk.length →
      (outerLoop z chunk fuel strm map_out).2 = none ∧
      (outerLoop z chunk fuel strm map_out).1.length = fuel := by
  have hu := uInt_le chunk.length
  induction fuel with
  | zero => intro strm map_out _ _; simp [outerLoop]
  | succ n ih =>
    intro strm map_out hinv hlen
    obtain ⟨h1, h2, h3, h4⟩ := hstep strm.state hinv
    have hcall : inflate z chunk
        { next_in := 0, avail_in := (uInt chunk.length), next_out := 0, avail_out := uInt map_out.length,
          state := strm.state } map_out Z_NO_FLUSH =
        ((z.inflate strm.state (List.take (uInt chunk.length) chunk) (uInt chunk.length) Z_NO_FLUSH).ret,
         { next_in := 0 + min (z.inflate strm.state (List.take (uInt chunk.length) chunk) (uInt chunk.length) Z_NO_FLUSH).consumed
             (uInt chunk.length),
           avail_in := (uInt chunk.length) -
             min (z.inflate strm.state (List.take (uInt chunk.length) chunk) (uInt chunk.length) Z_NO_FLUSH).consumed (uInt chunk.length),
           next_out := 0 +
             ((z.inflate strm.state (List.take (uInt chunk.length) chunk) (uInt chunk.length) Z_NO_FLUSH).produced.take
               (uInt chunk.length)).length,
           avail_out := (uInt chunk.length) -
             ((z.inflate strm.state (List.take (uInt chunk.length) chunk) (uInt chunk.length) Z_NO_FLUSH).produced.take
               (uInt chunk.length)).length,
           state := (z.inflate strm.state (List.take (uInt chunk.length) chunk) (uInt chunk.length) Z_NO_FLUSH).state },
         List.take 0 map_out ++
           (z.inflate strm.state (List.take (uInt chunk.length) chunk) (uInt chunk.length) Z_NO_FLUSH).produced.take (uInt chunk.length) ++
           map_out.drop (0 +
             ((z.inflate strm.state (List.take (uInt chunk.length) chunk) (uInt chunk.length) Z_NO_FLUSH).produced.take
               (uInt chunk.length)).length)) := by
      simp only [inflate, hlen, List.drop_zero]
    have hav : (uInt chunk.length) -
        ((z.inflate strm.state (List.take (uInt chunk.length) chunk) (uInt chunk.length) Z_NO_FLUSH).produced.take
          (uInt chunk.length)).length ≠ 0 := by
      rw [List.length_take]
      omega
    rw [outerLoop_succ, innerLoop_succ]
    simp only [hne, if_false, hcall, h1, Bool.false_eq_true, hav]
    simp only [h2, ne_eq, not_false_eq_true, if_true]
    have := ih
      { next_in := 0 + min (z.inflate strm.state (List.take (uInt chunk.length) chunk) (uInt chunk.length) Z_NO_FLUSH).consumed
          (uInt chunk.length),
        avail_in := (uInt chunk.length) -
          min (z.inflate strm.state (List.take (uInt chunk.length) chunk) (uInt chunk.length) Z_NO_FLUSH).consumed (uInt chunk.length),
        next_out := 0 +
          ((z.inflate strm.state (List.take (uInt chunk.length) chunk) (uInt chunk.length) Z_NO_FLUSH).produced.take
            (uInt chunk.length)).length,
        avail_out := (uInt chunk.length) -
          ((z.inflate strm.state (List.take (uInt chunk.length) chunk) (uInt chunk.length) Z_NO_FLUSH).produced.take
            (uInt chunk.length)).length,
        state := (z.inflate strm.state (List.take (uInt chunk.length) chunk) (uInt chunk.length) Z_NO_FLUSH).state }
      (List.take 0 map_out ++
        (z.inflate strm.state (List.take (uInt chunk.length) chunk) (uInt chunk.length) Z_NO_FLUSH).produced.take (uInt chunk.length) ++
        map_out.drop (0 +
          ((z.inflate strm.state (List.take (uInt chunk.length) chunk) (uInt chunk.length) Z_NO_FLUSH).produced.take
            (uInt chunk.length)).length)) h4
      (by simp only [List.length_append, List.length_take, List.length_drop]; omega)
    refine ⟨this.1, ?_⟩
    simp only [List.length_append, List.length_singleton, this.2]
    omega

theorem innerLoop_head (z : Zlib σ) (map_in : List Nat) (fuel : Nat) (strm : z_stream σ)
    (map_out : List Nat) :
    (innerLoop z map_in (fuel + 1) strm map_out).1[0]? =
      some ⟨{ strm with avail_out := uInt map_out.length, next_out := 0 },
        (inflate z map_in { strm with avail_out := uInt map_out.length, next_out := 0 }
          map_out Z_NO_FLUSH).1,
        (inflate z map_in { strm with avail_out := uInt map_out.length, next_out := 0 }
          map_out Z_NO_FLUSH).2.1⟩ := by
  rw [innerLoop_succ]
  split_ifs <;> simp

theorem outerLoop_head (z : Zlib σ) (map_in : List Nat) (fuel : Nat) (strm : z_stream σ)
    (map_out : List Nat) (hne : uInt map_in.length ≠ 0) :
    (outerLoop z map_in (fuel + 1) strm map_out).1[0]? =
      (innerLoop z map_in (fuel + 1)
        { strm with avail_in := uInt map_in.length, next_in := 0 } map_out).1[0]? := by
  have hh := innerLoop_head z map_in fuel
    { strm with avail_in := uInt map_in.length, next_in := 0 } map_out
  have hpos : 0 < (innerLoop z map_in (fuel + 1)
      { strm with avail_in := uInt map_in.length, next_in := 0 } map_out).1.length :=
    (List.getElem?_eq_some_iff.mp hh).1
  rw [outerLoop_succ]
  simp only [hne, if_false]
  split
  · rfl
  · rfl
  · split_ifs
    · exact List.getElem?_append_left hpos
    · rfl

theorem inflateCalls_head (z : Zlib σ) (fuel : Nat) (junk : Nat → Nat) (buf : List Nat)
    (hinit : (z.inflateInit2 (16 + MAX_WBITS)).1 = Z_OK) (hne : uInt buf.length ≠ 0) :
    (inflateCalls z (fuel + 1) junk buf)[0]? =
      some ⟨{ next_in := 0, avail_in := uInt buf.length, next_out := 0,
              avail_out := uInt buf.length, state := (z.inflateInit2 (16 + MAX_WBITS)).2 },
        (z.inflate (z.inflateInit2 (16 + MAX_WBITS)).2 (buf.take (uInt buf.length))
          (uInt buf.length) Z_NO_FLUSH).ret,
        { next_in := min (z.inflate (z.inflateInit2 (16 + MAX_WBITS)).2
              (buf.take (uInt buf.length)) (uInt buf.length) Z_NO_FLUSH).consumed
              (uInt buf.length),
          avail_in := uInt buf.length - min (z.inflate (z.inflateInit2 (16 + MAX_WBITS)).2
              (buf.take (uInt buf.length)) (uInt buf.length) Z_NO_FLUSH).consumed
              (uInt buf.length),
          next_out := ((z.inflate (z.inflateInit2 (16 + MAX_WBITS)).2
              (buf.take (uInt buf.length)) (uInt buf.length) Z_NO_FLUSH).produced.take
              (uInt buf.length)).length,
          avail_out := uInt buf.length - ((z.inflate (z.inflateInit2 (16 + MAX_WBITS)).2
              (buf.take (uInt buf.length)) (uInt buf.length) Z_NO_FLUSH).produced.take
              (uInt buf.length)).length,
          state := (z.inflate (z.inflateInit2 (16 + MAX_WBITS)).2
              (buf.take (uInt buf.length)) (uInt buf.length) Z_NO_FLUSH).state }⟩ := by
  simp only [inflateCalls, decompressTrace, hinit, ne_eq, not_true_eq_false, if_false]
  rw [outerLoop_head z buf fuel _ _ hne, innerLoop_head]
  simp [inflate, gst_buffer_new_allocate]

/-! ## The claims -/

/-- C9 (amended): whenever `decompress` returns a buffer, that buffer is as
long as the input chunk, whatever `inflate` wrote; and provided `inflateInit2`
returns `Z_OK`, a zero-length chunk gives the zero-length buffer without any
`inflate` call. -/
theorem C9_output_size_is_input_size (z : Zlib σ) (fuel : Nat) (junk : Nat → Nat)
    (buf : List Nat) :
    (∀ out, decompress z fuel junk buf = some (some out) → out.length = buf.length) ∧
    ((z.inflateInit2 (16 + MAX_WBITS)).1 = Z_OK →
      decompressTrace z (fuel + 1) junk [] = ([], some (some []))) := by
  refine ⟨?_, ?_⟩
  · intro out h
    simp only [decompress, decompressTrace] at h
    split_ifs at h with h0
    · simp at h
    · have := outerLoop_length z buf fuel _ _ _ h
      simpa [gst_buffer_new_allocate] using this
  · intro h
    simp [decompressTrace, h, outerLoop, gst_buffer_new_allocate, uInt]

/-- C9 as stated fails when `inflateInit2` fails: the zero-length chunk then
gives `NULL`, not a zero-length buffer. -/
theorem C9_counterexample :
    decompress (storedZlib Z_MEM_ERROR) 1 (fun _ => 0) [] = some none ∧
    ¬ decompress (storedZlib Z_MEM_ERROR) 1 (fun _ => 0) [] = some (some []) := by
  decide

/-- C9 at work: the 24-byte stream of one letter gives a 24-byte buffer, and
the empty chunk gives the empty buffer with no `inflate` call. -/
theorem C9_witness :
    decompress (storedZlib Z_OK) 2 (fun _ => 0) gzip_a
        = some (some (0x61 :: List.replicate 23 0)) ∧
    (0x61 :: List.replicate 23 0).length = gzip_a.length ∧
    decompressTrace (storedZlib Z_OK) 1 (fun _ => 0) [] = ([], some (some [])) :=
  ⟨by decide,
   (C9_output_size_is_input_size (storedZlib Z_OK) 2 (fun _ => 0) gzip_a).1 _ (by decide),
   (C9_output_size_is_input_size (storedZlib Z_OK) 0 (fun _ => 0) []).2 (by decide)⟩

/-- C3: a fatal `inflate` code (or a failed `inflateInit2`) makes `decompress`
return `NULL`; on `NULL` the chain function returns `GST_FLOW_ERROR` and pushes
nothing; a buffer returned by `decompress` is pushed as it is; and whatever the
chain function pushes is the buffer `decompress` returned. -/
theorem C3_error_propagation (z : Zlib σ) (peer : List Nat → Int) (fuel : Nat)
    (junk : Nat → Nat) (filter : Gstgzdec) (buf : List Nat) :
    (((z.inflateInit2 (16 + MAX_WBITS)).1 ≠ Z_OK ∨
        ∃ c ∈ inflateCalls z fuel junk buf, isFatal c.ret = true) →
      decompress z fuel junk buf = some none) ∧
    (decompress z fuel junk buf = some none →
      gst_gzdec_chain z peer fuel junk filter buf =
        some (GST_FLOW_ERROR, { filter with errors := filter.errors + 1 })) ∧
    (∀ outbuf, decompress z fuel junk buf = some (some outbuf) →
      gst_gzdec_chain z peer fuel junk filter buf =
        some (peer outbuf, { filter with srcpad := filter.srcpad ++ [outbuf] })) ∧
    (∀ flow filter1, gst_gzdec_chain z peer fuel junk filter buf = some (flow, filter1) →
      (decompress z fuel junk buf = some none ∧ flow = GST_FLOW_ERROR ∧
        filter1.srcpad = filter.srcpad) ∨
      (∃ outbuf, decompress z fuel junk buf = some (some outbuf) ∧ flow = peer outbuf ∧
        filter1.srcpad = filter.srcpad ++ [outbuf])) := by
  refine ⟨?_, ?_, ?_, ?_⟩
  · rintro (h | ⟨c, hc, hf⟩)
    · simp [decompress, decompressTrace, h]
    · simp only [decompress, inflateCalls, decompressTrace] at hc ⊢
      split_ifs at hc ⊢ with h0
      · rfl
      · exact outerLoop_fatal z buf fuel _ _ c hc hf
  · intro h
    simp [gst_gzdec_chain, h]
  · intro outbuf h
    simp [gst_gzdec_chain, gst_pad_push, h]
  · intro flow filter1 h
    simp only [gst_gzdec_chain, gst_pad_push] at h
    cases hd : decompress z fuel junk buf with
    | none => rw [hd] at h; simp at h
    | some r =>
      cases r with
      | none =>
        rw [hd] at h
        simp only [Option.some.injEq, Prod.mk.injEq] at h
        left
        exact ⟨rfl, h.1.symm, by rw [← h.2]⟩
      | some b =>
        rw [hd] at h
        simp only [Option.some.injEq, Prod.mk.injEq] at h
        right
        exact ⟨b, rfl, h.1.symm, by rw [← h.2]⟩

/-- C3 at work: the two zero bytes are no gzip header, `inflate` answers
`Z_DATA_ERROR`, `decompress` returns `NULL` and nothing is pushed; the stream
of one letter is decoded and its buffer pushed. -/
theorem C3_witness :
    decompress (storedZlib Z_OK) 2 (fun _ => 0) [0, 0] = some none ∧
    gst_gzdec_chain (storedZlib Z_OK) (fun _ => GST_FLOW_OK) 2 (fun _ => 0)
        gst_gzdec_init [0, 0]
      = some (GST_FLOW_ERROR, { srcpad := [], errors := 1, silent := false }) ∧
    gst_gzdec_chain (storedZlib Z_OK) (fun _ => GST_FLOW_OK) 2 (fun _ => 0)
        gst_gzdec_init gzip_a
      = some (GST_FLOW_OK,
          { srcpad := [0x61 :: List.replicate 23 0], errors := 0, silent := false }) :=
  ⟨(C3_error_propagation (storedZlib Z_OK) (fun _ => GST_FLOW_OK) 2 (fun _ => 0)
      gst_gzdec_init [0, 0]).1 (Or.inr (by decide)),
   (C3_error_propagation (storedZlib Z_OK) (fun _ => GST_FLOW_OK) 2 (fun _ => 0)
      gst_gzdec_init [0, 0]).2.1 (by decide),
   (C3_error_propagation (storedZlib Z_OK) (fun _ => GST_FLOW_OK) 2 (fun _ => 0)
      gst_gzdec_init gzip_a).2.2.1 _ (by decide)⟩

/-- C7: the chain function does the same on two elements that differ only in
`silent` (same flow return, same buffers pushed, same errors posted) and leaves
`silent` as it was; setting a property changes no field but `silent`, setting
`silent` stores the value, getting it returns the value stored, and a new
element has `silent = FALSE`. -/
theorem C7_silent_noninterference (z : Zlib σ) (peer : List Nat → Int) (fuel : Nat)
    (junk : Nat → Nat) (filter : Gstgzdec) (buf : List Nat) (silent : Bool)
    (prop_id : Nat) (value old : Bool) :
    gst_gzdec_chain z peer fuel junk { filter with silent := silent } buf =
      (gst_gzdec_chain z peer fuel junk filter buf).map
        (fun r => (r.1, { r.2 with silent := silent })) ∧
    (∀ r, gst_gzdec_chain z peer fuel junk filter buf = some r →
      r.2.silent = filter.silent) ∧
    (gst_gzdec_set_property filter prop_id value).srcpad = filter.srcpad ∧
    (gst_gzdec_set_property filter prop_id value).errors = filter.errors ∧
    gst_gzdec_set_property filter PROP_SILENT value = { filter with silent := value } ∧
    gst_gzdec_get_property (gst_gzdec_set_property filter PROP_SILENT value)
      PROP_SILENT old = value ∧
    gst_gzdec_get_property filter PROP_SILENT old = filter.silent ∧
    gst_gzdec_get_property gst_gzdec_init PROP_SILENT old = false := by
  refine ⟨?_, ?_, ?_, ?_, ?_, ?_, ?_, ?_⟩
  · simp only [gst_gzdec_chain, gst_pad_push]
    cases decompress z fuel junk buf with
    | none => rfl
    | some r => cases r <;> rfl
  · intro r h
    simp only [gst_gzdec_chain, gst_pad_push] at h
    cases hd : decompress z fuel junk buf with
    | none => rw [hd] at h; simp at h
    | some r1 =>
      cases r1 <;>
      · rw [hd] at h
        simp only [Option.some.injEq] at h
        rw [← h]
  · simp only [gst_gzdec_set_property]
    split_ifs <;> rfl
  · simp only [gst_gzdec_set_property]
    split_ifs <;> rfl
  · simp [gst_gzdec_set_property]
  · simp [gst_gzdec_set_property, gst_gzdec_get_property]
  · simp [gst_gzdec_get_property]
  · simp [gst_gzdec_get_property, gst_gzdec_init]

/-- C6 (amended): the element keeps no finished or failed state.  After any
sequence of chunks, whatever the earlier calls returned, the chain call on
the next chunk returns `GST_FLOW_ERROR` and pushes nothing when `decompress`
returns `NULL` for that chunk, and pushes the buffer and returns the peer's
flow value when `decompress` returns a buffer for that chunk. -/
theorem C6_later_call_depends_on_its_chunk (z : Zlib σ) (peer : List Nat → Int)
    (fuel : Nat) (junk : Nat → Nat) (filter : Gstgzdec) (history : List (List Nat))
    (buf : List Nat) :
    chainAll z peer fuel junk filter (history ++ [buf]) =
      match chainAll z peer fuel junk filter history, decompress z fuel junk buf with
      | some (flows, filter1), some none =>
        some (flows ++ [GST_FLOW_ERROR], { filter1 with errors := filter1.errors + 1 })
      | some (flows, filter1), some (some outbuf) =>
        some (flows ++ [peer outbuf], { filter1 with srcpad := filter1.srcpad ++ [outbuf] })
      | _, _ => none := by
  induction history generalizing filter with
  | nil =>
    simp only [List.nil_append, chainAll, gst_gzdec_chain, gst_pad_push]
    cases decompress z fuel junk buf with
    | none => rfl
    | some r => cases r <;> rfl
  | cons b rest ih =>
    simp only [List.cons_append, chainAll]
    cases gst_gzdec_chain z peer fuel junk filter b with
    | none => rfl
    | some r =>
      simp only []
      rw [show rest.append [buf] = rest ++ [buf] from rfl, ih r.2]
      cases chainAll z peer fuel junk r.2 rest with
      | none => rfl
      | some q =>
        cases decompress z fuel junk buf with
        | none => rfl
        | some w => cases w <;> simp

/-- C6 as stated fails: after a call that failed (two zero bytes are no gzip
header) the call on a whole stream returns `GST_FLOW_OK` and pushes a buffer;
and after a call that reached the end of a stream the next call, on another
whole stream, pushes a second buffer. -/
theorem C6_counterexample :
    chainAll (storedZlib Z_OK) (fun _ => GST_FLOW_OK) 2 (fun _ => 0) gst_gzdec_init
        [[0, 0], gzip_a]
      = some ([GST_FLOW_ERROR, GST_FLOW_OK],
          { srcpad := [0x61 :: List.replicate 23 0], errors := 1, silent := false }) ∧
    chainAll (storedZlib Z_OK) (fun _ => GST_FLOW_OK) 2 (fun _ => 0) gst_gzdec_init
        [gzip_a, gzip_a]
      = some ([GST_FLOW_OK, GST_FLOW_OK],
          { srcpad := [0x61 :: List.replicate 23 0, 0x61 :: List.replicate 23 0],
            errors := 0, silent := false }) := by
  decide

/-- C10 (amended): on a chunk shorter than 2^32 bytes, after an `inflate`
call that returned none of the four fatal codes, (a) if the call was not the
end of the stream and left output space, there is a next call and it is given
the whole, non-empty chunk from its first byte, on the state the call left;
(b) if the call filled the output buffer, there is a next call and it goes on
with the input the call left, on the state it left, with the output pointer
back at the start of the output buffer. -/
theorem C10_refeed_on_unfinished_stream (z : Zlib σ) (fuel : Nat) (junk : Nat → Nat)
    (buf : List Nat) (hsize : buf.length < 4294967296) (i : Nat) (c : InflateCall σ)
    (hc : (inflateCalls z fuel junk buf)[i]? = some c) (hnf : isFatal c.ret = false) :
    (inflateCalls z (fuel + 1) junk buf)[i]? = some c ∧
    (c.ret ≠ Z_STREAM_END → c.after.avail_out ≠ 0 →
      ∃ n, (inflateCalls z (fuel + 1) junk buf)[i + 1]? = some n ∧
        n.before.avail_in = buf.length ∧ n.before.next_in = 0 ∧ buf ≠ [] ∧
        (buf.drop n.before.next_in).take n.before.avail_in = buf ∧
        n.before.state = c.after.state) ∧
    (c.after.avail_out = 0 →
      ∃ n, (inflateCalls z (fuel + 1) junk buf)[i + 1]? = some n ∧
        n.before.avail_in = c.after.avail_in ∧ n.before.next_in = c.after.next_in ∧
        n.before.next_out = 0 ∧ n.before.avail_out = buf.length ∧
        n.before.state = c.after.state) := by
  have hu : uInt buf.length = buf.length := uInt_of_lt hsize
  have hne : uInt buf.length ≠ 0 := by
    intro hb
    rw [inflateCalls_nil z fuel junk buf hb] at hc
    simp at hc
  have hbuf : buf ≠ [] := by
    intro hb
    rw [hb] at hne
    exact hne rfl
  refine ⟨?_, ?_, ?_⟩
  · have hst := (decompressTrace_mono z fuel junk buf)
    obtain ⟨hi, _⟩ := List.getElem?_eq_some_iff.mp hc
    cases hres : decompress z fuel junk buf with
    | none =>
      obtain ⟨c0, rest, hcr⟩ := hst.2 hres hne
      rw [hcr, List.getElem?_append_left hi]
      exact hc
    | some res =>
      have heq : inflateCalls z (fuel + 1) junk buf = inflateCalls z fuel junk buf := by
        simp only [inflateCalls]
        rw [hst.1 (by rw [hres]; simp)]
      rw [heq]
      exact hc
  · intro hend hav
    obtain ⟨_, n, hn, _, hs, _, _, _, h2⟩ := next_call z fuel junk buf i c hc hnf (Or.inl hend)
    obtain ⟨_, ha, hi⟩ := h2 hav
    rw [hu] at ha
    exact ⟨n, hn, ha, hi, hbuf, by rw [ha, hi]; simp, hs⟩
  · intro hav
    obtain ⟨_, n, hn, _, hs, ho, hno, h1, _⟩ := next_call z fuel junk buf i c hc hnf (Or.inr hav)
    obtain ⟨ha, hi⟩ := h1 hav
    rw [hu] at ho
    exact ⟨n, hn, ha, hi, hno, ho, hs⟩

/-- C10 as stated fails on a chunk of 2^32 + 24 bytes: `avail_in` is a 32-bit
field, so line 226 stores 24 in it.  The first `inflate` call is given 24
bytes, returns `Z_OK` and leaves output space, and the next call is given 24
bytes again, not the whole chunk. -/
theorem C10_counterexample :
    ∃ c n, (inflateCalls (storedZlib Z_OK) 2 (fun _ => 0) gzip_huge)[0]? = some c ∧
      (inflateCalls (storedZlib Z_OK) 2 (fun _ => 0) gzip_huge)[1]? = some n ∧
      isFatal c.ret = false ∧ c.ret ≠ Z_STREAM_END ∧ c.after.avail_out ≠ 0 ∧
      gzip_huge.length = 4294967320 ∧ n.before.avail_in = 24 ∧
      n.before.avail_in ≠ gzip_huge.length := by
  have hlen : gzip_huge.length = 4294967320 := by
    rw [gzip_huge, List.length_append, List.length_replicate]
    rfl
  have hu : uInt gzip_huge.length = 24 := by
    rw [hlen]
    rfl
  have htake : gzip_huge.take 24 = gzip_cut ++ List.replicate 9 0 := by
    rw [gzip_huge, List.take_append_eq_append_take, List.take_replicate]
    rfl
  have h0 := inflateCalls_head (storedZlib Z_OK) 0 (fun _ => 0) gzip_huge (by decide)
    (by rw [hu]; decide)
  rw [hu, htake] at h0
  have hret : ((storedZlib Z_OK).inflate ((storedZlib Z_OK).inflateInit2 (16 + MAX_WBITS)).2
      (gzip_cut ++ List.replicate 9 0) 24 Z_NO_FLUSH).ret = Z_OK := by decide
  have hprod : (((storedZlib Z_OK).inflate ((storedZlib Z_OK).inflateInit2 (16 + MAX_WBITS)).2
      (gzip_cut ++ List.replicate 9 0) 24 Z_NO_FLUSH).produced.take 24).length = 9 := by
    decide
  rw [hret, hprod] at h0
  obtain ⟨h1, n, hn, hnext⟩ := next_call (storedZlib Z_OK) 1 (fun _ => 0) gzip_huge 0 _ h0
    (by decide) (Or.inl (by decide))
  obtain ⟨_, _, _, _, _, hrefeed⟩ := hnext
  have ha : n.before.avail_in = 24 := by
    rw [← hu]
    exact (hrefeed (by decide)).2.1
  exact ⟨_, n, h1, hn, by decide, by decide, by decide, hlen, ha, by rw [ha, hlen]; decide⟩

/-- C10 (amended) at work.  On the cut stream the first call takes all 15
bytes, writes nothing and returns `Z_OK`: the second call is given the 15 bytes
again.  On the hundred digits the first call fills the 33 bytes of output from
24 bytes of input: the second call goes on with the 9 bytes left. -/
theorem C10_witness :
    (∃ n, (inflateCalls (storedZlib Z_OK) 3 (fun _ => 0) gzip_cut)[1]? = some n ∧
      n.before.avail_in = 15 ∧ n.before.next_in = 0) ∧
    (∃ n, (inflateCalls (scriptedZlib Z_OK gzip_digits_answers) 3 (fun _ => 0)
        gzip_digits)[1]?
        = some n ∧ n.before.avail_in = 9 ∧ n.before.next_in = 24 ∧ n.before.next_out = 0) := by
  have h1 := (C10_refeed_on_unfinished_stream (storedZlib Z_OK) 2 (fun _ => 0) gzip_cut
    (by decide) 0
    ⟨⟨0, 15, 0, 15, ⟨inflate_mode.HEAD [], false, 0, 0⟩⟩, Z_OK,
     ⟨15, 0, 0, 15, ⟨inflate_mode.COPY 10, false, 0, 0⟩⟩⟩ (by decide) (by decide)).2.1
    (by decide) (by decide)
  have h2 := (C10_refeed_on_unfinished_stream (scriptedZlib Z_OK gzip_digits_answers) 2
    (fun _ => 0) gzip_digits (by decide) 0 ⟨⟨0, 33, 0, 33, 0⟩, Z_OK, ⟨24, 9, 33, 0, 1⟩⟩
    (by decide) (by decide)).2.2 (by decide)
  obtain ⟨n, hn, ha, hi, _⟩ := h1
  obtain ⟨m, hm, hma, hmi, hmo, _⟩ := h2
  exact ⟨⟨n, hn, ha, hi⟩, ⟨m, hm, hma, hmi, hmo⟩⟩

/-- C8 (amended): after an `inflate` call that filled the output buffer and
returned none of the four fatal codes there is a next call, and it is given
only the input that call left unconsumed (same `avail_in`, same `next_in`,
same state), with `next_out` back at the start of the output buffer; so after
a call that moved `next_in` past the first byte of the chunk the next call
does not start at the first byte. -/
theorem C8_after_a_full_output_buffer (z : Zlib σ) (fuel : Nat) (junk : Nat → Nat)
    (buf : List Nat) (i : Nat) (c : InflateCall σ)
    (hc : (inflateCalls z fuel junk buf)[i]? = some c) (hnf : isFatal c.ret = false)
    (hfull : c.after.avail_out = 0) :
    ∃ n, (inflateCalls z (fuel + 1) junk buf)[i + 1]? = some n ∧
      n.before.avail_in = c.after.avail_in ∧ n.before.next_in = c.after.next_in ∧
      n.before.state = c.after.state ∧ n.before.next_out = 0 ∧
      (c.after.next_in ≠ 0 → n.before.next_in ≠ 0) := by
  obtain ⟨_, n, hn, _, hs, _, hno, h1, _⟩ :=
    next_call z fuel junk buf i c hc hnf (Or.inr hfull)
  obtain ⟨ha, hi⟩ := h1 hfull
  exact ⟨n, hn, ha, hi, hs, hno, by rw [hi]; exact id⟩

/-- C8 as stated fails on the hundred digits: the first `inflate` call fills
the output buffer (`avail_out = 0`) with 9 input bytes left, and the second
call is given those 9 bytes at offset 24, not the 33 bytes from offset 0. -/
theorem C8_counterexample :
    ∃ c n, (inflateCalls (scriptedZlib Z_OK gzip_digits_answers) 5 (fun _ => 0)
        gzip_digits)[0]? = some c ∧
      (inflateCalls (scriptedZlib Z_OK gzip_digits_answers) 5 (fun _ => 0)
        gzip_digits)[1]? = some n ∧
      c.after.avail_out = 0 ∧ c.after.avail_in ≠ 0 ∧
      ¬ (n.before.avail_in = gzip_digits.length ∧ n.before.next_in = 0) ∧
      n.before.avail_in = 9 ∧ n.before.next_in = 24 :=
  ⟨⟨⟨0, 33, 0, 33, 0⟩, Z_OK, ⟨24, 9, 33, 0, 1⟩⟩, ⟨⟨24, 9, 0, 33, 1⟩, Z_OK, ⟨24, 9, 33, 0, 2⟩⟩,
    by decide, by decide, by decide, by decide, by decide, by decide, by decide⟩

/-- C8 (amended) at work on the hundred digits. -/
theorem C8_witness :
    ∃ n, (inflateCalls (scriptedZlib Z_OK gzip_digits_answers) 3 (fun _ => 0)
        gzip_digits)[1]? = some n ∧
      n.before.avail_in = 9 ∧ n.before.next_in = 24 ∧ n.before.state = 1 ∧
      n.before.next_out = 0 ∧ ((24 : Nat) ≠ 0 → n.before.next_in ≠ 0) :=
  C8_after_a_full_output_buffer (scriptedZlib Z_OK gzip_digits_answers) 2 (fun _ => 0)
    gzip_digits 0 ⟨⟨0, 33, 0, 33, 0⟩, Z_OK, ⟨24, 9, 33, 0, 1⟩⟩
    (by decide) (by decide) (by decide)

/-- C5, what the code does instead: when every `inflate` call on the bytes
offered (the first `uInt size` bytes of the chunk, the whole chunk below 2^32
bytes), from the states the run goes through (`Inv`), returns neither a fatal
code nor `Z_STREAM_END` and leaves output space, `decompress` never returns:
after any number of iterations it is still looping, having made that many
`inflate` calls. -/
theorem C5_decompress_loops_on_cut_stream (z : Zlib σ) (junk : Nat → Nat) (chunk : List Nat)
    (Inv : σ → Prop) (hinit : (z.inflateInit2 (16 + MAX_WBITS)).1 = Z_OK)
    (hne : uInt chunk.length ≠ 0) (h0 : Inv (z.inflateInit2 (16 + MAX_WBITS)).2)
    (hstep : ∀ s, Inv s →
      isFatal (z.inflate s (chunk.take (uInt chunk.length)) (uInt chunk.length)
        Z_NO_FLUSH).ret = false ∧
      (z.inflate s (chunk.take (uInt chunk.length)) (uInt chunk.length)
        Z_NO_FLUSH).ret ≠ Z_STREAM_END ∧
      (z.inflate s (chunk.take (uInt chunk.length)) (uInt chunk.length)
        Z_NO_FLUSH).produced.length < uInt chunk.length ∧
      Inv (z.inflate s (chunk.take (uInt chunk.length)) (uInt chunk.length)
        Z_NO_FLUSH).state)
    (fuel : Nat) :
    decompress z fuel junk chunk = none ∧ (inflateCalls z fuel junk chunk).length = fuel := by
  simp only [decompress, inflateCalls, decompressTrace, hinit, ne_eq, not_true_eq_false,
    if_false]
  exact outerLoop_forever z chunk Inv hne hstep fuel _ _ h0
    (by simp [gst_buffer_new_allocate])

/-- C5 at work: on the 15 bytes of the cut stream the stored-block decoder
first reads the two headers, then on every further call copies the first 10
bytes of the chunk as block content and reads the block header again; the run
is still looping after 1000 iterations. -/
theorem C5_witness :
    decompress (storedZlib Z_OK) 1000 (fun _ => 0) gzip_cut = none ∧
    (inflateCalls (storedZlib Z_OK) 1000 (fun _ => 0) gzip_cut).length = 1000 :=
  C5_decompress_loops_on_cut_stream (storedZlib Z_OK) (fun _ => 0) gzip_cut
    (fun s => (s.mode = inflate_mode.HEAD [] ∨ s.mode = inflate_mode.COPY 10) ∧ s.last = false)
    (by decide) (by decide) (by decide)
    (by
      rintro ⟨mode, last, check, total⟩ ⟨hm, hl⟩
      simp only at hm hl
      subst hl
      rcases hm with rfl | rfl
      · simp [storedZlib, inflateBytes, readByte, inflateRet, gzip_cut, afterBlock, isFatal,
          uInt]
      · simp [storedZlib, inflateBytes, readByte, inflateRet, gzip_cut, afterBlock, isFatal,
          uInt])
    1000

/-- C4, what the code does instead: when `inflate` decodes the bytes offered
(the first `uInt size` bytes of the chunk, the whole chunk below 2^32 bytes) in
one call as a stream with an empty payload (`Z_STREAM_END`, nothing written),
`decompress` returns the output buffer it allocated, untouched: as many bytes
as the chunk has, none of them written by `inflate`. -/
theorem C4_empty_payload_gives_chunk_sized_buffer (z : Zlib σ) (fuel : Nat)
    (junk : Nat → Nat) (chunk : List Nat)
    (hinit : (z.inflateInit2 (16 + MAX_WBITS)).1 = Z_OK) (hne : uInt chunk.length ≠ 0)
    (hend : (z.inflate (z.inflateInit2 (16 + MAX_WBITS)).2 (chunk.take (uInt chunk.length))
      (uInt chunk.length) Z_NO_FLUSH).ret = Z_STREAM_END)
    (hempty : (z.inflate (z.inflateInit2 (16 + MAX_WBITS)).2
      (chunk.take (uInt chunk.length)) (uInt chunk.length) Z_NO_FLUSH).produced = []) :
    decompress z (fuel + 1) junk chunk
      = some (some (gst_buffer_new_allocate junk chunk.length)) ∧
    (gst_buffer_new_allocate junk chunk.length).length = chunk.length ∧
    gst_buffer_new_allocate junk chunk.length ≠ [] := by
  have hl : chunk.length ≠ 0 := by
    intro h
    rw [h] at hne
    exact hne rfl
  have hlen : (gst_buffer_new_allocate junk chunk.length).length = chunk.length := by
    simp [gst_buffer_new_allocate]
  refine ⟨?_, hlen, ?_⟩
  · simp only [decompress, decompressTrace, hinit, ne_eq, not_true_eq_false, if_false]
    rw [outerLoop_succ, innerLoop_succ]
    have hf : isFatal Z_STREAM_END = false := by decide
    simp only [hne, if_false, inflate, hlen, List.drop_zero, hend, hempty]
    simp [hf, hne]
  · intro h
    rw [h] at hlen
    exact hl hlen.symm

/-- C4 at work: the 23-byte gzip stream of the empty payload gives back a
buffer of 23 bytes. -/
theorem C4_witness :
    decompress (storedZlib Z_OK) 1 (fun i => 0xAA + i) gzip_empty
      = some (some (gst_buffer_new_allocate (fun i => 0xAA + i) gzip_empty.length)) ∧
    (gst_buffer_new_allocate (fun i => 0xAA + i) gzip_empty.length).length
      = gzip_empty.length ∧
    gst_buffer_new_allocate (fun i => 0xAA + i) gzip_empty.length ≠ [] :=
  C4_empty_payload_gives_chunk_sized_buffer (storedZlib Z_OK) 0 (fun i => 0xAA + i) gzip_empty
    (by decide) (by decide) (by decide) (by decide)

/-- C2, what the code does instead, on the gzip stream of the hundred digits
(33 bytes): the four `inflate` calls write 33, 33, 33 and 1 bytes, each time at
the start of the same 33-byte buffer, and `decompress` returns those 33 bytes:
the last digit followed by what the third call left, neither the payload nor
a buffer of its length. -/
theorem C2_buffer_keeps_chunk_size :
    decompress (scriptedZlib Z_OK gzip_digits_answers) 4 (fun _ => 0) gzip_digits
      = some (some (0x39 :: (digits.drop 67).take 32)) ∧
    (inflateCalls (scriptedZlib Z_OK gzip_digits_answers) 4 (fun _ => 0) gzip_digits).map
      (fun c => (c.before.next_out, c.before.avail_out - c.after.avail_out))
      = [(0, 33), (0, 33), (0, 33), (0, 1)] ∧
    (0x39 :: (digits.drop 67).take 32).length = 33 ∧ gzip_digits.length = 33 ∧
    digits.length = 100 ∧ 0x39 :: (digits.drop 67).take 32 ≠ digits := by
  decide

/-- C1, what the code does instead, on the 24-byte gzip stream of the one
letter `a`.  In one chunk: a 24-byte buffer is pushed, the letter followed
by 23 bytes that `inflate` never wrote.  Cut after 12 bytes: both chain calls
return `GST_FLOW_ERROR` and nothing is pushed, because the second `inflate`
call of the first chain call is given the first 12 bytes again and the second
chain call starts from a fresh inflate state. -/
theorem C1_round_trip_fails :
    chainAll (storedZlib Z_OK) (fun _ => GST_FLOW_OK) 2 (fun i => 0xAA + i) gst_gzdec_init
        [gzip_a]
      = some ([GST_FLOW_OK],
          { srcpad := [0x61 :: (List.range 23).map (fun i => 0xAB + i)],
            errors := 0, silent := false }) ∧
    chainAll (storedZlib Z_OK) (fun _ => GST_FLOW_OK) 3 (fun i => 0xAA + i) gst_gzdec_init
        [gzip_a.take 12, gzip_a.drop 12]
      = some ([GST_FLOW_ERROR, GST_FLOW_ERROR],
          { srcpad := [], errors := 2, silent := false }) ∧
    (inflateCalls (storedZlib Z_OK) 3 (fun i => 0xAA + i) (gzip_a.take 12)).map
      (fun c => (c.before.next_in, c.before.avail_in, c.ret))
      = [(0, 12, Z_OK), (0, 12, Z_DATA_ERROR)] := by
  decide

end GzDec
